import Mathlib

/-!
Verification of the resume screening and scoring pipeline of the
`ats-backend` repository.

The pipeline lives in `src/services/ai_engine.py` (fuzzy skill matching,
anti-hallucination verification, deterministic scoring),
`src/main.py` (knockout filter of the background pipeline, and the bulk
upload entry point that dispatches the worker task),
`src/services/tasks.py` (the worker task `process_resume` and the batch
aggregation `_build_results_payload`), and
`src/routers/applicants.py` (single apply path with the same knockout).

Numeric conventions of the embedding: Python floats are modelled as `ℚ`
(every concrete input used below is exactly representable as an IEEE
double and keeps the Python arithmetic exact), Python ints as `ℤ` or `ℕ`.
Python `round` is round half to even, modelled by `roundHalfEven`.
Python strings are Lean `String`s; the substring test `a in b` is modelled
structurally on the underlying character lists, and `str.lower()` by
mapping `Char.toLower` over the characters.
-/

namespace ATS

/-- Structural test that the first list is a leading segment of the second. -/
def isPrefCL : List Char → List Char → Bool
  | [], _ => true
  | _ :: _, [] => false
  | a :: as, b :: bs => a == b && isPrefCL as bs

/-- Structural test that `n` occurs contiguously inside `h`: the model of
the Python substring operator `in` on character lists. -/
def isSubCL (n : List Char) : List Char → Bool
  | [] => n.isEmpty
  | b :: t => isPrefCL n (b :: t) || isSubCL n t

/-- Python substring test `a in b` on strings. -/
def strIn (a b : String) : Bool := isSubCL a.toList b.toList

/-- Python `str.lower()`. -/
def lowerStr (s : String) : String := ⟨s.toList.map Char.toLower⟩

/-- One step of `str.split()`: a whitespace character opens a new segment,
any other character is prepended to the current front segment. -/
def pushChar (c : Char) (acc : List (List Char)) : List (List Char) :=
  if c.isWhitespace then [] :: acc
  else
    match acc with
    | [] => [[c]]
    | w :: ws => (c :: w) :: ws

/-- Python `str.split()`: split on whitespace runs, no empty segments. -/
def wordsOf (l : List Char) : List (List Char) :=
  (l.foldr pushChar []).filter (fun w => !w.isEmpty)

/-- Python `" ".join(s.split()).lower()` on the character-list level.
Lower-casing is applied before splitting; this commutes with the split
because `Char.toLower` never changes whether a character is whitespace. -/
def normChars (l : List Char) : List Char :=
  List.intercalate [' '] (wordsOf (l.map Char.toLower))

/-- Whitespace-collapsed, lower-cased form of a text, as computed for the
citation verification in `calculate_deterministic_score`. -/
def normText (s : String) : List Char := normChars s.toList

/-- Round half to even on rationals: the model of Python `round(x)`. -/
def roundHalfEven (x : ℚ) : ℤ :=
  if Int.fract x < 1/2 then ⌊x⌋
  else if 1/2 < Int.fract x then ⌊x⌋ + 1
  else if ⌊x⌋ % 2 = 0 then ⌊x⌋ else ⌊x⌋ + 1

/-- Python `round(x, 1)`: round half to even at one decimal place, used for
the reported `breakdown` values. -/
def round1 (x : ℚ) : ℚ := (roundHalfEven (10 * x) : ℚ) / 10

/-- One entry of `jd_requirement_matches` after the sanitization in
`extract_candidate_facts` (src/services/ai_engine.py:336-344). -/
structure RequirementMatch where
  requirement : String
  is_met : Bool
  citation_quote : Option String
deriving DecidableEq

/-- Sanitized output of `extract_candidate_facts`
(src/services/ai_engine.py:313-344).  `skills_with_years` is the Python
dict in insertion order. -/
structure CandidateFacts where
  name : String
  email : String
  phone : String
  total_years_experience : ℚ
  recent_job_titles : List String
  skills_with_years : List (String × ℚ)
  metrics_bullet_count : ℤ
  jd_requirement_matches : List RequirementMatch
deriving DecidableEq

/-- The `breakdown` sub-dict of the scoring result
(src/services/ai_engine.py:551-556): each component rounded to one
decimal. -/
structure ScoreBreakdown where
  skill_depth : ℚ
  jd_requirements : ℚ
  experience : ℚ
  impact : ℚ
deriving DecidableEq

/-- Result dict of `calculate_deterministic_score`
(src/services/ai_engine.py:542-557).  The `summary` string is pure
presentation and is not part of any verified claim, so it is not
modelled. -/
structure ScoringResult where
  final_score : ℤ
  status : String
  matched_skills : List String
  matched_skills_count : ℕ
  verified_requirements : ℕ
  total_requirements : ℕ
  hallucination_count : ℕ
  breakdown : ScoreBreakdown
deriving DecidableEq

/-- Python dict assignment `d[k] = v` on an insertion-ordered association
list: an existing key keeps its position and gets the new value, a new key
is appended. -/
def dictInsert (m : List (String × ℚ)) (k : String) (v : ℚ) :
    List (String × ℚ) :=
  if m.any (fun p => p.1 == k) then
    m.map (fun p => if p.1 == k then (k, v) else p)
  else m ++ [(k, v)]

/-- The dict comprehension `{k.lower(): v for k, v in skills_with_years.items()}`
(src/services/ai_engine.py:413-415): first-occurrence position, last
value wins on key collisions after lower-casing. -/
def lowerKeys (m : List (String × ℚ)) : List (String × ℚ) :=
  m.foldl (fun acc p => dictInsert acc (lowerStr p.1) p.2) []

/-- `_fuzzy_match_skill` (src/services/ai_engine.py:364-384): exact
lower-case key match first, then the first key related to the required
skill by a substring test in either direction; `(none, 0)` if nothing
matches.  The local variable `req = required.lower()` of the source is
inlined as `lowerStr required`. -/
def fuzzyMatchSkill (required : String)
    (candidate_skills_lower : List (String × ℚ)) : Option String × ℚ :=
  match candidate_skills_lower.find? (fun p => p.1 == lowerStr required) with
  | some p => (some (lowerStr required), p.2)
  | none =>
    match candidate_skills_lower.find? (fun p =>
        strIn (lowerStr required) p.1 || strIn p.1 (lowerStr required)) with
    | some p => (some p.1, p.2)
    | none => (none, 0)

/-- Per-match contribution of the anti-hallucination loop
(src/services/ai_engine.py:450-467) as a pair
(verified increment, hallucination increment).  Python truthiness: an
`is_met` match whose citation is `None` or the empty string takes the
missing-citation branch. -/
def matchTally (normResume : List Char) (m : RequirementMatch) : ℕ × ℕ :=
  match m.citation_quote with
  | some s =>
    if m.is_met && !(s == "") then
      if isSubCL (normText s) normResume then (1, 0) else (0, 1)
    else if m.is_met then (0, 1) else (0, 0)
  | none => if m.is_met then (0, 1) else (0, 0)

/-- The `verified_requirements` counter accumulated by the loop at
src/services/ai_engine.py:450-467. -/
def verifiedCount (normResume : List Char) (ms : List RequirementMatch) : ℕ :=
  (ms.map (fun m => (matchTally normResume m).1)).sum

/-- The `hallucination_count` counter accumulated by the loop at
src/services/ai_engine.py:450-467. -/
def hallucCount (normResume : List Char) (ms : List RequirementMatch) : ℕ :=
  (ms.map (fun m => (matchTally normResume m).2)).sum

/-- Guard of the JD-requirements section
(src/services/ai_engine.py:446): the loop and the score only run when
there is at least one match and the raw resume text is non-empty. -/
def jdGuard (ms : List RequirementMatch) (raw_resume_text : String) : Bool :=
  0 < ms.length && !(raw_resume_text == "")

/-- `verified_requirements` as returned by `calculate_deterministic_score`
(0 when the guard fails). -/
def verifiedRequirements (ms : List RequirementMatch)
    (raw_resume_text : String) : ℕ :=
  if jdGuard ms raw_resume_text then verifiedCount (normText raw_resume_text) ms
  else 0

/-- `hallucination_count` as returned by `calculate_deterministic_score`
(0 when the guard fails). -/
def hallucinationCount (ms : List RequirementMatch)
    (raw_resume_text : String) : ℕ :=
  if jdGuard ms raw_resume_text then hallucCount (normText raw_resume_text) ms
  else 0

/-- `effective_min = max(min_experience, 1.0)`
(src/services/ai_engine.py:421). -/
def effectiveMin (min_experience : ℚ) : ℚ := max min_experience 1

/-- Depth contribution of one required skill
(src/services/ai_engine.py:423-430). -/
def skillDepthPart (cand : List (String × ℚ)) (effMin : ℚ)
    (req_skill : String) : ℚ :=
  match fuzzyMatchSkill req_skill cand with
  | (some _, yrs) => min 1 (yrs / effMin)
  | (none, _) => 0

/-- The list `skill_depth_parts` (src/services/ai_engine.py:419-430). -/
def skillDepthParts (requiredLower : List String)
    (cand : List (String × ℚ)) (effMin : ℚ) : List ℚ :=
  requiredLower.map (skillDepthPart cand effMin)

/-- The list `matched_skills` (src/services/ai_engine.py:420-428):
lower-cased required skills that found a fuzzy match, in order. -/
def matchedSkills (requiredLower : List String)
    (cand : List (String × ℚ)) : List String :=
  requiredLower.filter (fun r => ((fuzzyMatchSkill r cand).1).isSome)

/-- `avg_depth` (src/services/ai_engine.py:432-435): mean of the parts, 0
for an empty list. -/
def avgOf (parts : List ℚ) : ℚ :=
  if parts.isEmpty then 0 else parts.sum / parts.length

/-- `skill_depth_points` (src/services/ai_engine.py:436). -/
def skillDepthPoints (required_skills : List String)
    (skills_with_years : List (String × ℚ)) (min_experience : ℚ) : ℚ :=
  avgOf (skillDepthParts (required_skills.map lowerStr)
    (lowerKeys skills_with_years) (effectiveMin min_experience)) * 40

/-- `jd_requirements_points` (src/services/ai_engine.py:441-470). -/
def jdRequirementsPoints (ms : List RequirementMatch)
    (raw_resume_text : String) : ℚ :=
  if jdGuard ms raw_resume_text then
    ((verifiedCount (normText raw_resume_text) ms : ℚ) / (ms.length : ℚ)) * 30
  else 0

/-- `experience_points` (src/services/ai_engine.py:476-480). -/
def experiencePoints (total_years_experience min_experience : ℚ) : ℚ :=
  if min_experience ≤ total_years_experience then 20
  else total_years_experience / max min_experience 1 * 20

/-- `impact_points` (src/services/ai_engine.py:484). -/
def impactPoints (metrics_bullet_count : ℤ) : ℚ :=
  min 10 ((metrics_bullet_count : ℚ) / 5 * 10)

/-- `raw` (src/services/ai_engine.py:487): un-rounded sum of the four
weighted components. -/
def rawScore (c : CandidateFacts) (required_skills : List String)
    (min_experience : ℚ) (raw_resume_text : String) : ℚ :=
  skillDepthPoints required_skills c.skills_with_years min_experience
    + jdRequirementsPoints c.jd_requirement_matches raw_resume_text
    + experiencePoints c.total_years_experience min_experience
    + impactPoints c.metrics_bullet_count

/-- Status bucketing (src/services/ai_engine.py:491-496). -/
def statusOf (final_score : ℤ) : String :=
  if 80 ≤ final_score then "shortlisted"
  else if 60 ≤ final_score then "review"
  else "rejected"

/-- `calculate_deterministic_score` (src/services/ai_engine.py:387-557).
The unused `job_title` parameter of the source is omitted; the `summary`
string is not modelled (pure presentation). -/
def calculate_deterministic_score (candidate : CandidateFacts)
    (required_skills : List String) (min_experience : ℚ)
    (raw_resume_text : String) : ScoringResult :=
  let final := roundHalfEven
    (rawScore candidate required_skills min_experience raw_resume_text)
  { final_score := final
    status := statusOf final
    matched_skills := matchedSkills (required_skills.map lowerStr)
      (lowerKeys candidate.skills_with_years)
    matched_skills_count := (matchedSkills (required_skills.map lowerStr)
      (lowerKeys candidate.skills_with_years)).length
    verified_requirements :=
      verifiedRequirements candidate.jd_requirement_matches raw_resume_text
    total_requirements := candidate.jd_requirement_matches.length
    hallucination_count :=
      hallucinationCount candidate.jd_requirement_matches raw_resume_text
    breakdown :=
      { skill_depth := round1 (skillDepthPoints required_skills
          candidate.skills_with_years min_experience)
        jd_requirements := round1 (jdRequirementsPoints
          candidate.jd_requirement_matches raw_resume_text)
        experience := round1 (experiencePoints
          candidate.total_years_experience min_experience)
        impact := round1 (impactPoints candidate.metrics_bullet_count) } }

/-- Knockout filter of the background pipeline (src/main.py:225-250),
duplicated verbatim in the single-apply path
(src/routers/applicants.py:69-93).  Rule 1 is the experience floor with
the 0.5-year buffer; rule 2 is the 50% skill-coverage floor over the
lower-cased candidate skill keys, with the same two-way substring test as
the fuzzy matcher, evaluated only when rule 1 did not fire and the
required-skills list is non-empty.  The local variables
`candidate_skill_keys`, `required_lower` and `matched` of the source are
inlined. -/
def knockout (total_years_experience : ℚ)
    (skills_with_years : List (String × ℚ))
    (required_skills : List String) (min_experience : ℚ) : Bool :=
  if total_years_experience < min_experience - 1/2 then true
  else if required_skills.isEmpty then false
  else
    decide (((((required_skills.map lowerStr).filter (fun s =>
          (skills_with_years.map (fun p => lowerStr p.1)).any
            (fun k => strIn s k || strIn k s))).length : ℚ)
        / (((required_skills.map lowerStr)).length : ℚ)) < 1/2)

/-- Outcome of processing one resume after fact extraction, as persisted
by the orchestrators.  `scorerRan` records whether
`calculate_deterministic_score` was invoked; `breakdown` is `none` exactly
when the candidate was finalized without scoring. -/
structure PipelineOutcome where
  scorerRan : Bool
  final_score : ℤ
  status : String
  breakdown : Option ScoreBreakdown
deriving DecidableEq

/-- Post-extraction stages of the background pipeline
(src/main.py:225-302): knockout first, scorer only when not knocked out;
a knocked-out candidate is persisted with score 0, status "rejected" and a
null breakdown. -/
def processResumeBackground (facts : CandidateFacts)
    (required_skills : List String) (min_experience : ℚ)
    (resume_text : String) : PipelineOutcome :=
  if knockout facts.total_years_experience facts.skills_with_years
      required_skills min_experience then
    ⟨false, 0, "rejected", none⟩
  else
    let r := calculate_deterministic_score facts required_skills
      min_experience resume_text
    ⟨true, r.final_score, r.status, some r.breakdown⟩

/-- Post-extraction stages of the Celery worker task `process_resume`
(src/services/tasks.py:151-179), the path actually dispatched by the bulk
upload endpoint (src/main.py:484): it runs the scorer unconditionally and
applies no knockout filter. -/
def processResumeTask (facts : CandidateFacts)
    (required_skills : List String) (min_experience : ℚ)
    (resume_text : String) : PipelineOutcome :=
  let r := calculate_deterministic_score facts required_skills
    min_experience resume_text
  ⟨true, r.final_score, r.status, some r.breakdown⟩

/-- One persisted applicant row as re-read by the batch aggregation
(src/services/tasks.py:29-44); only the fields the aggregation logic
consumes are modelled, with `match_score` the persisted final score. -/
structure CandidateRecord where
  name : String
  email : String
  match_score : ℤ
  status : String
deriving DecidableEq

/-- Batch aggregate (`_build_results_payload`,
src/services/tasks.py:29-78; the counting and shortlist logic is the same
in src/main.py:334-344). -/
structure BatchResults where
  all_candidates : List CandidateRecord
  shortlisted : List CandidateRecord
  shortlisted_count : ℕ
  review_count : ℕ
  rejected_count : ℕ
deriving DecidableEq

/-- `_build_results_payload` (src/services/tasks.py:29-78): stable sort by
score descending (Python `list.sort(key=..., reverse=True)`), then the
shortlist is the leading `max(1, N // 10)` entries for a non-empty list
and empty otherwise. -/
def build_results_payload (candidates : List CandidateRecord) : BatchResults :=
  let sorted := candidates.mergeSort
    (fun a b => decide (b.match_score ≤ a.match_score))
  let shortlisted :=
    if sorted.isEmpty then []
    else sorted.take (max 1 (sorted.length / 10))
  { all_candidates := sorted
    shortlisted := shortlisted
    shortlisted_count := shortlisted.length
    review_count := (sorted.filter (fun c => c.status == "review")).length
    rejected_count := (sorted.filter (fun c => c.status == "rejected")).length }

/-- Outcome of the external Vertex AI call as seen by
`extract_candidate_facts`: the model may be unreachable or unconfigured
(`_get_model()` returns `None`), may return a payload on which JSON
parsing or type sanitization raises, or may yield sanitized facts. -/
inductive ExtractionPayload where
  | unreachable
  | unparsable
  | parsed (facts : CandidateFacts)
deriving DecidableEq

/-- Result of `extract_candidate_facts`: either the
`AIServiceUnavailableError` raise or a returned facts record. -/
inductive ExtractResult where
  | unavailableError
  | ok (facts : CandidateFacts)
deriving DecidableEq

/-- The zero-valued sentinel record returned on silent failure
(src/services/ai_engine.py:224-232 and 351-359). -/
def sentinelFacts : CandidateFacts :=
  { name := "Unknown Candidate"
    email := "unknown@error.com"
    phone := ""
    total_years_experience := 0
    recent_job_titles := []
    skills_with_years := []
    metrics_bullet_count := 0
    jd_requirement_matches := [] }

/-- Control flow of `extract_candidate_facts`
(src/services/ai_engine.py:206-359) with the external call abstracted as
an `ExtractionPayload`: an unreachable model raises exactly when
`fail_on_unavailable` is set and otherwise returns the sentinel; any
exception while parsing or sanitizing the response is caught and returns
the sentinel regardless of the flag. -/
def extract_candidate_facts (payload : ExtractionPayload)
    (fail_on_unavailable : Bool) : ExtractResult :=
  match payload with
  | .unreachable =>
    if fail_on_unavailable then .unavailableError else .ok sentinelFacts
  | .unparsable => .ok sentinelFacts
  | .parsed facts => .ok facts

/-- True when `extract_candidate_facts` raised. -/
def raisesUnavailable : ExtractResult → Bool
  | .unavailableError => true
  | .ok _ => false

/-- Modelled from the spec: the criterion for a verified match exactly as
claim C2 and §4.4 state it — `is_met`, citation non-null, and the
normalized citation a literal substring of the normalized resume text
(with no requirement that the citation be non-empty). -/
def specVerifiedMatch (raw_resume_text : String) (m : RequirementMatch) : Bool :=
  m.is_met && m.citation_quote.isSome
    && isSubCL (normText (m.citation_quote.getD "")) (normText raw_resume_text)

/-- The criterion the code actually implements for a verified match: the
citation must additionally be non-empty, because the empty string is falsy
in Python. -/
def codeVerifiedMatch (raw_resume_text : String) (m : RequirementMatch) : Bool :=
  m.is_met && m.citation_quote.isSome && !(m.citation_quote.getD "" == "")
    && isSubCL (normText (m.citation_quote.getD "")) (normText raw_resume_text)

/-! ### Helper lemmas about the verifier counters -/

/-- The empty character list is a substring of every character list. -/
lemma isSubCL_nil (h : List Char) : isSubCL [] h = true := by
  cases h <;> simp [isSubCL, isPrefCL]

/-- Normalizing the empty string yields the empty character list. -/
lemma normText_empty : normText "" = [] := rfl

/-- The verified increment of one match is the indicator of
`codeVerifiedMatch`. -/
lemma matchTally_fst (resume : String) (m : RequirementMatch) :
    (matchTally (normText resume) m).1 =
      if codeVerifiedMatch resume m then 1 else 0 := by
  rcases m with ⟨req, met, cit⟩
  cases cit with
  | none => cases met <;> simp [matchTally, codeVerifiedMatch]
  | some s =>
    cases met with
    | false => simp [matchTally, codeVerifiedMatch]
    | true =>
      by_cases hs : s = ""
      · subst hs; simp [matchTally, codeVerifiedMatch]
      · by_cases hsub : isSubCL (normText s) (normText resume) = true <;>
          simp [matchTally, codeVerifiedMatch, hs, hsub]

/-- The hallucination increment of one match is the indicator of an
`is_met` match that is not code-verified. -/
lemma matchTally_snd (resume : String) (m : RequirementMatch) :
    (matchTally (normText resume) m).2 =
      if m.is_met && !(codeVerifiedMatch resume m) then 1 else 0 := by
  rcases m with ⟨req, met, cit⟩
  cases cit with
  | none => cases met <;> simp [matchTally, codeVerifiedMatch]
  | some s =>
    cases met with
    | false => simp [matchTally, codeVerifiedMatch]
    | true =>
      by_cases hs : s = ""
      · subst hs; simp [matchTally, codeVerifiedMatch]
      · by_cases hsub : isSubCL (normText s) (normText resume) = true <;>
          simp [matchTally, codeVerifiedMatch, hs, hsub]

/-- Summing an indicator over a list counts the satisfying entries. -/
lemma sum_map_indicator {α : Type} (l : List α) (p : α → Bool) :
    (l.map (fun a => if p a then (1 : ℕ) else 0)).sum = l.countP p := by
  induction l with
  | nil => simp
  | cons a t ih => simp [List.countP_cons, ih]; omega

/-- The verifier counter equals a count of code-verified matches. -/
lemma verifiedCount_eq_countP (resume : String) (ms : List RequirementMatch) :
    verifiedCount (normText resume) ms = ms.countP (codeVerifiedMatch resume) := by
  unfold verifiedCount
  rw [List.map_congr_left (fun m _ => matchTally_fst resume m)]
  exact sum_map_indicator ms (codeVerifiedMatch resume)

/-- The hallucination counter counts `is_met` matches that are not
code-verified. -/
lemma hallucCount_eq_countP (resume : String) (ms : List RequirementMatch) :
    hallucCount (normText resume) ms =
      ms.countP (fun m => m.is_met && !(codeVerifiedMatch resume m)) := by
  unfold hallucCount
  rw [List.map_congr_left (fun m _ => matchTally_snd resume m)]
  exact sum_map_indicator ms _

/-- A single match contributes at most once across both counters. -/
lemma matchTally_add_le (nr : List Char) (m : RequirementMatch) :
    (matchTally nr m).1 + (matchTally nr m).2 ≤ 1 := by
  rcases m with ⟨req, met, cit⟩
  cases cit with
  | none => cases met <;> simp [matchTally]
  | some s =>
    cases met with
    | false => simp [matchTally]
    | true =>
      by_cases hs : s = ""
      · subst hs; simp [matchTally]
      · by_cases hsub : isSubCL (normText s) nr = true <;>
          simp [matchTally, hs, hsub]

/-- Verified and hallucinated matches together never exceed the number of
matches. -/
lemma counts_add_le (nr : List Char) (ms : List RequirementMatch) :
    verifiedCount nr ms + hallucCount nr ms ≤ ms.length := by
  induction ms with
  | nil => simp [verifiedCount, hallucCount]
  | cons m t ih =>
    have h := matchTally_add_le nr m
    simp only [verifiedCount, hallucCount, List.map_cons, List.sum_cons,
      List.length_cons] at *
    omega

/-- C10: in the anti-hallucination verifier, a requirement match with
`is_met = true` and `citation_quote` equal to the empty string goes
through the missing-citation branch — it adds one to the hallucination
counter and nothing to the verified counter — even though the normalized
empty string is a literal substring of every normalized resume text. -/
theorem empty_citation_counts_as_hallucination (q : String) (nr : List Char)
    (l : List RequirementMatch) (r : String) :
    matchTally nr ⟨q, true, some ""⟩ = (0, 1) ∧
    verifiedCount nr (⟨q, true, some ""⟩ :: l) = verifiedCount nr l ∧
    hallucCount nr (⟨q, true, some ""⟩ :: l) = 1 + hallucCount nr l ∧
    isSubCL (normText "") (normText r) = true := by
  refine ⟨by simp [matchTally], ?_, ?_, isSubCL_nil _⟩
  · simp [verifiedCount, List.map_cons, List.sum_cons, matchTally]
  · simp [hallucCount, List.map_cons, List.sum_cons, matchTally]

/-- Concrete facts record used to exhibit the empty-citation behavior: a
single requirement match claimed met with an empty citation quote. -/
def factsEmptyCitation : CandidateFacts :=
  { sentinelFacts with
    jd_requirement_matches := [⟨"Must know FastAPI", true, some ""⟩] }

/-- C2, counterexample: a match with `is_met = true` and
`citation_quote = ""` satisfies the criterion of the claim — `is_met`,
citation non-null, normalized citation a substring of the normalized
resume — yet the code counts it as a hallucination and not as verified. -/
theorem claim2_counterexample_empty_citation :
    specVerifiedMatch "abc" ⟨"Must know FastAPI", true, some ""⟩ = true ∧
    (calculate_deterministic_score factsEmptyCitation [] 0 "abc").verified_requirements = 0 ∧
    (calculate_deterministic_score factsEmptyCitation [] 0 "abc").hallucination_count = 1 := by
  decide

/-- C2 (amended): a match is counted as verified iff `is_met` is true,
its citation is non-null AND non-empty, and the normalized citation is a
literal substring of the normalized resume text; it is counted as a
hallucination iff `is_met` is true and it is not verified; matches with
`is_met = false` count as neither, and verified plus hallucinated never
exceeds the total. -/
theorem verifier_counts_characterization (c : CandidateFacts)
    (req : List String) (minExp : ℚ) (resume : String) (h : resume ≠ "") :
    (calculate_deterministic_score c req minExp resume).verified_requirements
        = c.jd_requirement_matches.countP (codeVerifiedMatch resume) ∧
    (calculate_deterministic_score c req minExp resume).hallucination_count
        = c.jd_requirement_matches.countP
            (fun m => m.is_met && !(codeVerifiedMatch resume m)) ∧
    (calculate_deterministic_score c req minExp resume).verified_requirements
        + (calculate_deterministic_score c req minExp resume).hallucination_count
      ≤ (calculate_deterministic_score c req minExp resume).total_requirements := by
  have hres : (resume == "") = false := by
    simp [h]
  rcases hms : c.jd_requirement_matches with _ | ⟨m, t⟩
  · simp [calculate_deterministic_score, verifiedRequirements,
      hallucinationCount, jdGuard, hms]
  · have hguard : jdGuard (m :: t) resume = true := by
      simp [jdGuard, hres]
    refine ⟨?_, ?_, ?_⟩
    · simp [calculate_deterministic_score, verifiedRequirements, hguard,
        verifiedCount_eq_countP, hms]
    · simp [calculate_deterministic_score, hallucinationCount, hguard,
        hallucCount_eq_countP, hms]
    · simp [calculate_deterministic_score, verifiedRequirements,
        hallucinationCount, hguard, hms]
      exact counts_add_le _ _

/-- Concrete facts record with one genuinely verifiable match. -/
def factsVerifiable : CandidateFacts :=
  { sentinelFacts with
    jd_requirement_matches := [⟨"Must know FastAPI", true, some "FastAPI"⟩] }

/-- Witness for `verifier_counts_characterization` at a concrete input. -/
theorem verifier_counts_characterization_witness :
    ("built APIs with FastAPI" ≠ "") ∧
    (calculate_deterministic_score factsVerifiable [] 0
        "built APIs with FastAPI").verified_requirements
      = factsVerifiable.jd_requirement_matches.countP
          (codeVerifiedMatch "built APIs with FastAPI") ∧
    (calculate_deterministic_score factsVerifiable [] 0
        "built APIs with FastAPI").verified_requirements = 1 :=
  ⟨by decide,
   (verifier_counts_characterization factsVerifiable [] 0
      "built APIs with FastAPI" (by decide)).1,
   by decide⟩

/-! ### Rounding lemmas -/

/-- Round half to even lands within one half of its argument. -/
lemma roundHalfEven_abs_le (x : ℚ) :
    |(roundHalfEven x : ℚ) - x| ≤ 1/2 := by
  have hs : x - Int.fract x = (⌊x⌋ : ℚ) := Int.self_sub_fract x
  have h0 := Int.fract_nonneg x
  have h1 := Int.fract_lt_one x
  unfold roundHalfEven
  split_ifs <;> rw [abs_le] <;> constructor <;> push_cast <;> linarith

/-- At an exact half-integer, round half to even picks the even neighbor. -/
lemma roundHalfEven_tie (n : ℤ) :
    roundHalfEven ((n : ℚ) + 1/2) = if n % 2 = 0 then n else n + 1 := by
  have hfr : Int.fract ((n : ℚ) + 1/2) = 1/2 := by
    rw [add_comm, Int.fract_add_int]
    exact Int.fract_eq_self.mpr ⟨by norm_num, by norm_num⟩
  have hfl : ⌊(n : ℚ) + 1/2⌋ = n := by
    rw [Int.floor_int_add]
    norm_num
  unfold roundHalfEven
  rw [hfr, hfl]
  norm_num

/-- Rounding to one decimal moves a value by at most one twentieth. -/
lemma round1_abs_le (x : ℚ) : |round1 x - x| ≤ 1/20 := by
  have h := roundHalfEven_abs_le (10 * x)
  unfold round1
  rw [show (roundHalfEven (10 * x) : ℚ) / 10 - x
      = ((roundHalfEven (10 * x) : ℚ) - 10 * x) / 10 by ring, abs_div,
    abs_of_pos (by norm_num : (0:ℚ) < 10)]
  linarith

/-! ### C5: rounding of the final score -/

/-- Concrete scoring input whose un-rounded component sum is exactly
82.5: full skill depth (40), three of four requirement matches verified
(22.5), half the experience requirement (10), full impact (10). -/
def factsTie : CandidateFacts :=
  { name := "Tie"
    email := "tie@example.com"
    phone := ""
    total_years_experience := 1
    recent_job_titles := []
    skills_with_years := [("python", 4)]
    metrics_bullet_count := 5
    jd_requirement_matches :=
      [⟨"r1", true, some "alpha"⟩, ⟨"r2", true, some "beta"⟩,
       ⟨"r3", true, some "gamma"⟩, ⟨"r4", false, none⟩] }

/-- The components of `factsTie` sum to exactly 82.5. -/
lemma rawScore_factsTie :
    rawScore factsTie ["python"] 2 "alpha beta gamma" = 82 + 1/2 := by
  have hlow : lowerStr "python" = "python" := by decide
  have hskill : skillDepthPoints ["python"] [("python", (4:ℚ))] 2 = 40 := by
    simp [skillDepthPoints, skillDepthParts, skillDepthPart, avgOf,
      lowerKeys, dictInsert, fuzzyMatchSkill, hlow, effectiveMin,
      List.find?, List.foldl]
    norm_num
  have hguard : jdGuard factsTie.jd_requirement_matches "alpha beta gamma"
      = true := by decide
  have hvc : verifiedCount (normText "alpha beta gamma")
      factsTie.jd_requirement_matches = 3 := by decide
  have hjd : jdRequirementsPoints factsTie.jd_requirement_matches
      "alpha beta gamma" = 45/2 := by
    rw [jdRequirementsPoints, if_pos hguard, hvc]
    norm_num [factsTie]
  have hexp : experiencePoints 1 2 = 10 := by
    norm_num [experiencePoints]
  have himp : impactPoints 5 = 10 := by
    norm_num [impactPoints]
  show skillDepthPoints _ _ _ + _ + _ + _ = _
  rw [show factsTie.skills_with_years = [("python", (4:ℚ))] from rfl, hskill,
    hjd, show factsTie.total_years_experience = 1 from rfl, hexp,
    show factsTie.metrics_bullet_count = 5 from rfl, himp]
  norm_num

/-- C5, counterexample: at `factsTie` the raw component sum is exactly
82.5 but the final score is 82, not the larger integer 83 — Python
`round` is half-to-even, not half-up. -/
theorem claim5_counterexample_half_to_even :
    rawScore factsTie ["python"] 2 "alpha beta gamma" = 82 + 1/2 ∧
    (calculate_deterministic_score factsTie ["python"] 2
        "alpha beta gamma").final_score = 82 ∧
    (calculate_deterministic_score factsTie ["python"] 2
        "alpha beta gamma").final_score ≠ 83 := by
  have h : rawScore factsTie ["python"] 2 "alpha beta gamma"
      = ((82 : ℤ) : ℚ) + 1/2 := by
    rw [rawScore_factsTie]; norm_num
  have hdef : (calculate_deterministic_score factsTie ["python"] 2
      "alpha beta gamma").final_score
      = roundHalfEven (rawScore factsTie ["python"] 2 "alpha beta gamma") := rfl
  have hfinal : (calculate_deterministic_score factsTie ["python"] 2
      "alpha beta gamma").final_score = 82 := by
    rw [hdef, h, roundHalfEven_tie]
    norm_num
  exact ⟨rawScore_factsTie, hfinal, by rw [hfinal]; decide⟩

/-- C5 (amended): the final score is the four-component sum rounded half
to even, so a raw sum that is exactly halfway between two integers rounds
to the even neighbor: to `n` when `n` is even, and up to `n + 1` when `n`
is odd. -/
theorem final_score_half_even_tie (c : CandidateFacts)
    (req : List String) (minExp : ℚ) (resume : String) (n : ℤ)
    (h : rawScore c req minExp resume = (n : ℚ) + 1/2) :
    (calculate_deterministic_score c req minExp resume).final_score
      = if n % 2 = 0 then n else n + 1 := by
  have hdef : (calculate_deterministic_score c req minExp resume).final_score
      = roundHalfEven (rawScore c req minExp resume) := rfl
  rw [hdef, h, roundHalfEven_tie]

/-- Witness for `final_score_half_even_tie` at a concrete input. -/
theorem final_score_half_even_tie_witness :
    rawScore factsTie ["python"] 2 "alpha beta gamma" = ((82 : ℤ) : ℚ) + 1/2 ∧
    (calculate_deterministic_score factsTie ["python"] 2
        "alpha beta gamma").final_score = if (82 : ℤ) % 2 = 0 then 82 else 83 := by
  have h : rawScore factsTie ["python"] 2 "alpha beta gamma"
      = ((82 : ℤ) : ℚ) + 1/2 := by
    rw [rawScore_factsTie]; norm_num
  refine ⟨h, ?_⟩
  rw [final_score_half_even_tie factsTie ["python"] 2 "alpha beta gamma" 82 h]
  norm_num

/-! ### C8: reported breakdown versus final score -/

/-- C8: for every scoring input, summing the four reported breakdown
components (each independently rounded to one decimal) and rounding the
sum lands within plus or minus 1 of the final score. -/
theorem breakdown_sum_close_to_final (c : CandidateFacts)
    (req : List String) (minExp : ℚ) (resume : String) :
    |roundHalfEven
        ((calculate_deterministic_score c req minExp resume).breakdown.skill_depth
          + (calculate_deterministic_score c req minExp resume).breakdown.jd_requirements
          + (calculate_deterministic_score c req minExp resume).breakdown.experience
          + (calculate_deterministic_score c req minExp resume).breakdown.impact)
      - (calculate_deterministic_score c req minExp resume).final_score| ≤ 1 := by
  have h1 : (calculate_deterministic_score c req minExp resume).breakdown.skill_depth
      = round1 (skillDepthPoints req c.skills_with_years minExp) := rfl
  have h2 : (calculate_deterministic_score c req minExp resume).breakdown.jd_requirements
      = round1 (jdRequirementsPoints c.jd_requirement_matches resume) := rfl
  have h3 : (calculate_deterministic_score c req minExp resume).breakdown.experience
      = round1 (experiencePoints c.total_years_experience minExp) := rfl
  have h4 : (calculate_deterministic_score c req minExp resume).breakdown.impact
      = round1 (impactPoints c.metrics_bullet_count) := rfl
  have hf : (calculate_deterministic_score c req minExp resume).final_score
      = roundHalfEven (rawScore c req minExp resume) := rfl
  rw [h1, h2, h3, h4, hf]
  set a := skillDepthPoints req c.skills_with_years minExp with ha
  set b := jdRequirementsPoints c.jd_requirement_matches resume with hb
  set d := experiencePoints c.total_years_experience minExp with hd
  set e := impactPoints c.metrics_bullet_count with he
  have hraw : rawScore c req minExp resume = a + b + d + e := rfl
  rw [hraw]
  set S := round1 a + round1 b + round1 d + round1 e with hSdef
  have hS : |S - (a + b + d + e)| ≤ 1/5 := by
    have e1 := abs_le.mp (round1_abs_le a)
    have e2 := abs_le.mp (round1_abs_le b)
    have e3 := abs_le.mp (round1_abs_le d)
    have e4 := abs_le.mp (round1_abs_le e)
    rw [abs_le]
    constructor <;> [linarith [e1.1, e2.1, e3.1, e4.1];
      linarith [e1.2, e2.2, e3.2, e4.2]]
  have hA := abs_le.mp (roundHalfEven_abs_le S)
  have hB := abs_le.mp (roundHalfEven_abs_le (a + b + d + e))
  have hq : ((|roundHalfEven S - roundHalfEven (a + b + d + e)| : ℤ) : ℚ)
      ≤ 6/5 := by
    rw [Int.cast_abs]
    push_cast
    rw [abs_le]
    have hSle := abs_le.mp hS
    constructor <;> [linarith [hA.1, hB.2, hSle.2];
      linarith [hA.2, hB.1, hSle.1]]
  have hlt : |roundHalfEven S - roundHalfEven (a + b + d + e)| < 2 := by
    exact_mod_cast lt_of_le_of_lt hq (by norm_num : (6/5 : ℚ) < 2)
  omega

/-! ### C1: range of the final score and status bucketing -/

/-- A dict write preserves non-negativity of the stored values. -/
lemma dictInsert_values_nonneg (acc : List (String × ℚ)) (k : String) (v : ℚ)
    (hacc : ∀ p ∈ acc, 0 ≤ p.2) (hv : 0 ≤ v) :
    ∀ p ∈ dictInsert acc k v, 0 ≤ p.2 := by
  intro p hp
  unfold dictInsert at hp
  split at hp
  · rcases List.mem_map.mp hp with ⟨q, hq, rfl⟩
    by_cases hqk : (q.1 == k) = true <;> simp [hqk]
    · exact hv
    · exact hacc q hq
  · rcases List.mem_append.mp hp with h | h
    · exact hacc p h
    · rcases List.mem_singleton.mp h with rfl
      exact hv

/-- Lower-casing the skill keys preserves non-negativity of the years. -/
lemma lowerKeys_values_nonneg (m : List (String × ℚ))
    (hm : ∀ p ∈ m, 0 ≤ p.2) : ∀ p ∈ lowerKeys m, 0 ≤ p.2 := by
  suffices h : ∀ (l acc : List (String × ℚ)), (∀ p ∈ acc, 0 ≤ p.2) →
      (∀ p ∈ l, 0 ≤ p.2) →
      ∀ p ∈ l.foldl (fun acc p => dictInsert acc (lowerStr p.1) p.2) acc,
        0 ≤ p.2 by
    exact h m [] (by simp) hm
  intro l
  induction l with
  | nil => intro acc hacc _ p hp; exact hacc p hp
  | cons q t ih =>
    intro acc hacc hl p hp
    simp only [List.foldl_cons] at hp
    exact ih _
      (dictInsert_values_nonneg acc _ _ hacc (hl q (List.mem_cons_self q t)))
      (fun r hr => hl r (List.mem_cons_of_mem q hr)) p hp

/-- The years returned by the fuzzy matcher come from the dict (or are 0),
so they are non-negative whenever the dict values are. -/
lemma fuzzyMatchSkill_snd_nonneg (r : String) (m : List (String × ℚ))
    (hm : ∀ p ∈ m, 0 ≤ p.2) : 0 ≤ (fuzzyMatchSkill r m).2 := by
  unfold fuzzyMatchSkill
  cases h1 : m.find? (fun p => p.1 == lowerStr r) with
  | some p => exact hm p (List.mem_of_find?_eq_some h1)
  | none =>
    cases h2 : m.find? (fun p =>
        strIn (lowerStr r) p.1 || strIn p.1 (lowerStr r)) with
    | some p => exact hm p (List.mem_of_find?_eq_some h2)
    | none => simp

/-- Each per-skill depth contribution lies in `[0, 1]` when the dict
values are non-negative and the effective minimum is at least 1. -/
lemma skillDepthPart_bounds (cand : List (String × ℚ)) (effMin : ℚ)
    (r : String) (hcand : ∀ p ∈ cand, 0 ≤ p.2) (hmin : 1 ≤ effMin) :
    0 ≤ skillDepthPart cand effMin r ∧ skillDepthPart cand effMin r ≤ 1 := by
  have hyrs := fuzzyMatchSkill_snd_nonneg r cand hcand
  unfold skillDepthPart
  rcases hf : fuzzyMatchSkill r cand with ⟨o, yrs⟩
  rw [hf] at hyrs
  cases o with
  | none => norm_num
  | some k =>
    simp only []
    constructor
    · exact le_min (by norm_num) (div_nonneg hyrs (by linarith))
    · exact min_le_left _ _

/-- The average of a list of values in `[0, 1]` lies in `[0, 1]`. -/
lemma avgOf_bounds (l : List ℚ) (h : ∀ x ∈ l, 0 ≤ x ∧ x ≤ 1) :
    0 ≤ avgOf l ∧ avgOf l ≤ 1 := by
  unfold avgOf
  split
  · norm_num
  · rename_i hne
    have hlen : 0 < l.length := by
      cases l with
      | nil => simp at hne
      | cons a t => simp
    have hlenq : (0 : ℚ) < l.length := by exact_mod_cast hlen
    constructor
    · exact div_nonneg (List.sum_nonneg (fun x hx => (h x hx).1)) (le_of_lt hlenq)
    · rw [div_le_one hlenq]
      have := List.sum_le_card_nsmul l 1 (fun x hx => (h x hx).2)
      simpa [nsmul_eq_mul] using this

/-- The skill-depth component lies in `[0, 40]` whenever the skill years
are non-negative. -/
lemma skillDepthPoints_bounds (req : List String)
    (skills : List (String × ℚ)) (minExp : ℚ)
    (hsk : ∀ p ∈ skills, 0 ≤ p.2) :
    0 ≤ skillDepthPoints req skills minExp ∧
      skillDepthPoints req skills minExp ≤ 40 := by
  have hmin : 1 ≤ effectiveMin minExp := le_max_right _ _
  have hlk := lowerKeys_values_nonneg skills hsk
  have havg := avgOf_bounds
    (skillDepthParts (req.map lowerStr) (lowerKeys skills) (effectiveMin minExp))
    (by
      intro x hx
      rcases List.mem_map.mp hx with ⟨r, _, rfl⟩
      exact skillDepthPart_bounds _ _ r hlk hmin)
  unfold skillDepthPoints
  constructor <;> nlinarith [havg.1, havg.2]

/-- The verified counter never exceeds the number of matches. -/
lemma verifiedCount_le_length (nr : List Char) (ms : List RequirementMatch) :
    verifiedCount nr ms ≤ ms.length :=
  le_trans (Nat.le_add_right _ _) (counts_add_le nr ms)

/-- The JD-requirements component lies in `[0, 30]`. -/
lemma jdRequirementsPoints_bounds (ms : List RequirementMatch)
    (resume : String) :
    0 ≤ jdRequirementsPoints ms resume ∧ jdRequirementsPoints ms resume ≤ 30 := by
  unfold jdRequirementsPoints
  split
  · rename_i hguard
    have hlen : 0 < ms.length := by
      simp only [jdGuard, Bool.and_eq_true, decide_eq_true_eq] at hguard
      exact hguard.1
    have hlenq : (0 : ℚ) < ms.length := by exact_mod_cast hlen
    have hvc : (verifiedCount (normText resume) ms : ℚ) ≤ ms.length := by
      exact_mod_cast verifiedCount_le_length (normText resume) ms
    have hdiv0 : 0 ≤ (verifiedCount (normText resume) ms : ℚ) / ms.length :=
      div_nonneg (by positivity) (le_of_lt hlenq)
    have hdiv1 : (verifiedCount (normText resume) ms : ℚ) / ms.length ≤ 1 := by
      rw [div_le_one hlenq]; exact hvc
    constructor <;> nlinarith
  · norm_num

/-- The experience component lies in `[0, 20]` whenever the candidate
years are non-negative. -/
lemma experiencePoints_bounds (ty minExp : ℚ) (hty : 0 ≤ ty) :
    0 ≤ experiencePoints ty minExp ∧ experiencePoints ty minExp ≤ 20 := by
  unfold experiencePoints
  split
  · norm_num
  · rename_i hlt
    have hmax1 : (1 : ℚ) ≤ max minExp 1 := le_max_right _ _
    have hmaxpos : (0 : ℚ) < max minExp 1 := by linarith
    have hle : ty ≤ max minExp 1 :=
      le_trans (le_of_lt (not_le.mp hlt)) (le_max_left _ _)
    have hdiv1 : ty / max minExp 1 ≤ 1 := by
      rw [div_le_one hmaxpos]; exact hle
    have hdiv0 : 0 ≤ ty / max minExp 1 := div_nonneg hty (le_of_lt hmaxpos)
    constructor <;> nlinarith

/-- The impact component lies in `[0, 10]` whenever the bullet count is
non-negative. -/
lemma impactPoints_bounds (b : ℤ) (hb : 0 ≤ b) :
    0 ≤ impactPoints b ∧ impactPoints b ≤ 10 := by
  have hbq : (0 : ℚ) ≤ (b : ℚ) := by exact_mod_cast hb
  unfold impactPoints
  constructor
  · exact le_min (by norm_num) (by positivity)
  · exact min_le_left _ _

/-- Rounding a value of `[0, 100]` half to even stays inside `[0, 100]`. -/
lemma roundHalfEven_mem_Icc (x : ℚ) (h0 : 0 ≤ x) (h1 : x ≤ 100) :
    0 ≤ roundHalfEven x ∧ roundHalfEven x ≤ 100 := by
  have h := abs_le.mp (roundHalfEven_abs_le x)
  constructor
  · have hq : (-1 : ℚ) < (roundHalfEven x : ℚ) := by linarith
    have : (-1 : ℤ) < roundHalfEven x := by exact_mod_cast hq
    omega
  · have hq : ((roundHalfEven x : ℤ) : ℚ) < 101 := by linarith
    have : roundHalfEven x < (101 : ℤ) := by exact_mod_cast hq
    omega

/-- Status is "shortlisted" exactly for final scores of at least 80. -/
lemma statusOf_shortlisted (s : ℤ) : statusOf s = "shortlisted" ↔ 80 ≤ s := by
  unfold statusOf
  split_ifs with h1 h2
  · exact iff_of_true rfl h1
  · exact iff_of_false (by decide) h1
  · exact iff_of_false (by decide) h1

/-- Status is "review" exactly for final scores in `[60, 80)`. -/
lemma statusOf_review (s : ℤ) : statusOf s = "review" ↔ 60 ≤ s ∧ s < 80 := by
  unfold statusOf
  split_ifs with h1 h2
  · exact iff_of_false (by decide) (by omega)
  · exact iff_of_true rfl (by omega)
  · exact iff_of_false (by decide) (by omega)

/-- Status is "rejected" exactly for final scores below 60. -/
lemma statusOf_rejected (s : ℤ) : statusOf s = "rejected" ↔ s < 60 := by
  unfold statusOf
  split_ifs with h1 h2
  · exact iff_of_false (by decide) (by omega)
  · exact iff_of_false (by decide) (by omega)
  · exact iff_of_true rfl (by omega)

/-- C1: for every facts record with non-negative extracted numbers, every
required-skills list, non-negative experience floor, and resume text, the
final score lies in `[0, 100]`, and the status equals "shortlisted" iff
the final score is at least 80, "review" iff it lies in `[60, 80)`, and
"rejected" iff it is below 60. -/
theorem final_score_range_and_status (c : CandidateFacts)
    (req : List String) (minExp : ℚ) (resume : String)
    (hyears : 0 ≤ c.total_years_experience)
    (hskills : ∀ p ∈ c.skills_with_years, 0 ≤ p.2)
    (hbullets : 0 ≤ c.metrics_bullet_count)
    (_hmin : 0 ≤ minExp) :
    0 ≤ (calculate_deterministic_score c req minExp resume).final_score ∧
    (calculate_deterministic_score c req minExp resume).final_score ≤ 100 ∧
    ((calculate_deterministic_score c req minExp resume).status = "shortlisted"
      ↔ 80 ≤ (calculate_deterministic_score c req minExp resume).final_score) ∧
    ((calculate_deterministic_score c req minExp resume).status = "review"
      ↔ 60 ≤ (calculate_deterministic_score c req minExp resume).final_score ∧
        (calculate_deterministic_score c req minExp resume).final_score < 80) ∧
    ((calculate_deterministic_score c req minExp resume).status = "rejected"
      ↔ (calculate_deterministic_score c req minExp resume).final_score < 60) := by
  have hsk := skillDepthPoints_bounds req c.skills_with_years minExp hskills
  have hjd := jdRequirementsPoints_bounds c.jd_requirement_matches resume
  have hex := experiencePoints_bounds c.total_years_experience minExp hyears
  have him := impactPoints_bounds c.metrics_bullet_count hbullets
  have hraw0 : 0 ≤ rawScore c req minExp resume := by
    unfold rawScore; linarith [hsk.1, hjd.1, hex.1, him.1]
  have hraw100 : rawScore c req minExp resume ≤ 100 := by
    unfold rawScore; linarith [hsk.2, hjd.2, hex.2, him.2]
  have hmem := roundHalfEven_mem_Icc _ hraw0 hraw100
  have hfs : (calculate_deterministic_score c req minExp resume).final_score
      = roundHalfEven (rawScore c req minExp resume) := rfl
  have hst : (calculate_deterministic_score c req minExp resume).status
      = statusOf (calculate_deterministic_score c req minExp resume).final_score
      := rfl
  refine ⟨?_, ?_, ?_, ?_, ?_⟩
  · rw [hfs]; exact hmem.1
  · rw [hfs]; exact hmem.2
  · rw [hst]; exact statusOf_shortlisted _
  · rw [hst]; exact statusOf_review _
  · rw [hst]; exact statusOf_rejected _

/-- Witness for `final_score_range_and_status` at the concrete `factsTie`
input (final score 82, shortlisted). -/
theorem final_score_range_and_status_witness :
    (0 : ℚ) ≤ factsTie.total_years_experience ∧
    (∀ p ∈ factsTie.skills_with_years, (0:ℚ) ≤ p.2) ∧
    (0 : ℤ) ≤ factsTie.metrics_bullet_count ∧
    (0 : ℚ) ≤ 2 ∧
    0 ≤ (calculate_deterministic_score factsTie ["python"] 2
        "alpha beta gamma").final_score ∧
    (calculate_deterministic_score factsTie ["python"] 2
        "alpha beta gamma").final_score ≤ 100 := by
  have h1 : (0 : ℚ) ≤ factsTie.total_years_experience := by norm_num [factsTie]
  have h2 : ∀ p ∈ factsTie.skills_with_years, (0:ℚ) ≤ p.2 := by
    rintro p hp
    rcases List.mem_singleton.mp hp with rfl
    norm_num
  have h3 : (0 : ℤ) ≤ factsTie.metrics_bullet_count := by norm_num [factsTie]
  have h4 : (0 : ℚ) ≤ 2 := by norm_num
  have h := final_score_range_and_status factsTie ["python"] 2
    "alpha beta gamma" h1 h2 h3 h4
  exact ⟨h1, h2, h3, h4, h.1, h.2.1⟩

/-! ### C4: the knockout decision -/

/-- C4: the knockout decision fires exactly when the experience floor
(rule 1) triggers, or rule 1 did not trigger, some skills are required,
and strictly less than half of the lower-cased required skills have a
two-way substring match against the lower-cased candidate skill keys;
moreover a coverage of exactly one half passes the filter. -/
theorem knockout_characterization (ty : ℚ) (skills : List (String × ℚ))
    (req : List String) (minExp : ℚ) :
    (knockout ty skills req minExp = true ↔
      (ty < minExp - 1/2 ∨
        (¬(ty < minExp - 1/2) ∧ req ≠ [] ∧
          ((((req.map lowerStr).filter (fun s =>
                (skills.map (fun p => lowerStr p.1)).any
                  (fun k => strIn s k || strIn k s))).length : ℚ)
              / (((req.map lowerStr)).length : ℚ) < 1/2)))) ∧
    ((¬(ty < minExp - 1/2) ∧ req ≠ [] ∧
        ((((req.map lowerStr).filter (fun s =>
              (skills.map (fun p => lowerStr p.1)).any
                (fun k => strIn s k || strIn k s))).length : ℚ)
            / (((req.map lowerStr)).length : ℚ) = 1/2)) →
      knockout ty skills req minExp = false) := by
  constructor
  · unfold knockout
    split_ifs with h1 h2
    · exact iff_of_true rfl (Or.inl h1)
    · refine iff_of_false (by simp) ?_
      rintro (h | ⟨_, hne, _⟩)
      · exact h1 h
      · exact hne (List.isEmpty_iff.mp h2)
    · rw [decide_eq_true_eq]
      constructor
      · intro hfrac
        exact Or.inr ⟨h1, fun he => h2 (by simp [he]), hfrac⟩
      · rintro (h | ⟨_, _, hfrac⟩)
        · exact absurd h h1
        · exact hfrac
  · rintro ⟨hn, hne, heq⟩
    unfold knockout
    rw [if_neg hn, if_neg (by simpa [List.isEmpty_iff] using hne)]
    rw [decide_eq_false_iff_not, heq]
    norm_num

/-- Witness for `knockout_characterization`: rule 1 fires on a candidate
with no experience against a five-year floor. -/
theorem knockout_characterization_witness :
    knockout 0 [] [] 5 = true ∧ ((0 : ℚ) < 5 - 1/2) :=
  ⟨(knockout_characterization 0 [] [] 5).1.mpr (Or.inl (by norm_num)),
   by norm_num⟩

/-! ### C7: the knockout membership test versus the fuzzy matcher -/

/-- A character list is always a leading segment of itself. -/
lemma isPrefCL_refl (l : List Char) : isPrefCL l l = true := by
  induction l with
  | nil => rfl
  | cons a t ih => simp [isPrefCL, ih]

/-- A character list is always a substring of itself. -/
lemma isSubCL_refl (l : List Char) : isSubCL l l = true := by
  cases l with
  | nil => rfl
  | cons a t => simp [isSubCL, isPrefCL_refl]

/-- Every string is a Python-substring of itself. -/
lemma strIn_self (a : String) : strIn a a = true := isSubCL_refl _

/-- C7: for a lower-cased required skill and a skill dict with lower-cased
keys, the membership test of the knockout skill floor (some key matches
the skill by a substring test in either direction) succeeds exactly when
`_fuzzy_match_skill` returns a non-null matched key on the same inputs. -/
theorem knockout_matcher_equiv (s : String) (m : List (String × ℚ))
    (hs : lowerStr s = s) (hm : ∀ p ∈ m, lowerStr p.1 = p.1) :
    ((m.map (fun p => lowerStr p.1)).any
        (fun k => strIn s k || strIn k s) = true)
      ↔ ((fuzzyMatchSkill s m).1).isSome = true := by
  have hmap : m.map (fun p => lowerStr p.1) = m.map Prod.fst :=
    List.map_congr_left (fun p hp => hm p hp)
  have hany : ((m.map (fun p => lowerStr p.1)).any
      (fun k => strIn s k || strIn k s) = true)
      ↔ ∃ p ∈ m, (strIn s p.1 || strIn p.1 s) = true := by
    rw [hmap, List.any_eq_true]
    constructor
    · rintro ⟨k, hk, hpk⟩
      rcases List.mem_map.mp hk with ⟨p, hpm, rfl⟩
      exact ⟨p, hpm, hpk⟩
    · rintro ⟨p, hpm, hp⟩
      exact ⟨p.1, List.mem_map_of_mem Prod.fst hpm, hp⟩
  rw [hany]
  unfold fuzzyMatchSkill
  rw [hs]
  cases hf1 : m.find? (fun p => p.1 == s) with
  | some p =>
    have hps : p.1 = s := by
      have := List.find?_some hf1
      simpa using this
    refine iff_of_true ?_ (by simp)
    exact ⟨p, List.mem_of_find?_eq_some hf1,
      by rw [hps, strIn_self]; simp⟩
  | none =>
    cases hf2 : m.find? (fun p => strIn s p.1 || strIn p.1 s) with
    | some p =>
      have hp := List.find?_some hf2
      exact iff_of_true ⟨p, List.mem_of_find?_eq_some hf2, hp⟩ (by simp)
    | none =>
      refine iff_of_false ?_ (by simp)
      rintro ⟨p, hpm, hp⟩
      have := List.find?_eq_none.mp hf2 p hpm
      exact this hp

/-- Witness for `knockout_matcher_equiv` at a concrete input: the skill
"python" against the single key "python3". -/
theorem knockout_matcher_equiv_witness :
    lowerStr "python" = "python" ∧
    (∀ p ∈ [("python3", (3:ℚ))], lowerStr p.1 = p.1) ∧
    ((fuzzyMatchSkill "python" [("python3", (3:ℚ))]).1).isSome = true := by
  have hs : lowerStr "python" = "python" := by decide
  have hm : ∀ p ∈ [("python3", (3:ℚ))], lowerStr p.1 = p.1 := by
    rintro p hp
    rcases List.mem_singleton.mp hp with rfl
    decide
  refine ⟨hs, hm, ?_⟩
  exact (knockout_matcher_equiv "python" [("python3", 3)] hs hm).mp (by decide)

/-! ### C3: knockout placement in the two batch paths -/

/-- Rounding an integer half to even is the identity. -/
lemma roundHalfEven_intCast (n : ℤ) : roundHalfEven (n : ℚ) = n := by
  unfold roundHalfEven
  rw [Int.fract_intCast, Int.floor_intCast]
  norm_num

/-- Concrete facts record that the knockout filter rejects (no experience
against a five-year floor) but that still earns 50 scoring points from
skill depth and impact. -/
def factsKnockable : CandidateFacts :=
  { name := "K"
    email := "k@example.com"
    phone := ""
    total_years_experience := 0
    recent_job_titles := []
    skills_with_years := [("python", 10)]
    metrics_bullet_count := 5
    jd_requirement_matches := [] }

/-- The components of `factsKnockable` sum to exactly 50. -/
lemma rawScore_factsKnockable :
    rawScore factsKnockable ["python"] 5 "python engineer" = 50 := by
  have hlow : lowerStr "python" = "python" := by decide
  have hskill : skillDepthPoints ["python"] [("python", (10:ℚ))] 5 = 40 := by
    simp [skillDepthPoints, skillDepthParts, skillDepthPart, avgOf,
      lowerKeys, dictInsert, fuzzyMatchSkill, hlow, effectiveMin,
      List.find?, List.foldl]
    norm_num
  have hjd : jdRequirementsPoints ([] : List RequirementMatch)
      "python engineer" = 0 := by
    simp [jdRequirementsPoints, jdGuard]
  have hexp : experiencePoints 0 5 = 0 := by
    norm_num [experiencePoints]
  have himp : impactPoints 5 = 10 := by
    norm_num [impactPoints]
  show skillDepthPoints _ _ _ + _ + _ + _ = _
  rw [show factsKnockable.skills_with_years = [("python", (10:ℚ))] from rfl,
    hskill,
    show factsKnockable.jd_requirement_matches = ([] : List RequirementMatch)
      from rfl, hjd,
    show factsKnockable.total_years_experience = 0 from rfl, hexp,
    show factsKnockable.metrics_bullet_count = 5 from rfl, himp]
  norm_num

/-- C3 fails on the live batch path: `factsKnockable` is knocked out by
the filter — the background pipeline of `main.py` finalizes it with score
0, status "rejected" and no breakdown, without running the scorer — yet
the Celery task `process_resume` (the path the bulk upload endpoint
actually dispatches) runs the deterministic scorer on it unconditionally
and produces score 50 with a breakdown. -/
theorem task_pipeline_skips_knockout :
    knockout factsKnockable.total_years_experience
      factsKnockable.skills_with_years ["python"] 5 = true ∧
    processResumeBackground factsKnockable ["python"] 5 "python engineer"
      = ⟨false, 0, "rejected", none⟩ ∧
    (processResumeTask factsKnockable ["python"] 5
        "python engineer").scorerRan = true ∧
    (processResumeTask factsKnockable ["python"] 5
        "python engineer").final_score = 50 ∧
    (processResumeTask factsKnockable ["python"] 5
        "python engineer").breakdown.isSome = true := by
  have hko : knockout factsKnockable.total_years_experience
      factsKnockable.skills_with_years ["python"] 5 = true := by
    norm_num [knockout, factsKnockable]
  have hbg : processResumeBackground factsKnockable ["python"] 5
      "python engineer" = ⟨false, 0, "rejected", none⟩ := by
    simp [processResumeBackground, hko]
  have hfin : (processResumeTask factsKnockable ["python"] 5
      "python engineer").final_score = 50 := by
    have hdef : (processResumeTask factsKnockable ["python"] 5
        "python engineer").final_score
        = roundHalfEven (rawScore factsKnockable ["python"] 5
            "python engineer") := rfl
    rw [hdef, rawScore_factsKnockable,
      show (50 : ℚ) = ((50 : ℤ) : ℚ) by norm_num, roundHalfEven_intCast]
  exact ⟨hko, hbg, rfl, hfin, rfl⟩

/-! ### C6: batch sorting and shortlist size -/

/-- C6: in every batch aggregate, `all_candidates` is sorted by score
descending, and `shortlisted` is the leading segment of length
`max 1 (N / 10)` when the candidate list is non-empty and empty when it
is empty. -/
theorem batch_results_sorted_and_shortlist (cands : List CandidateRecord) :
    List.Pairwise (fun a b => b.match_score ≤ a.match_score)
      (build_results_payload cands).all_candidates ∧
    (cands ≠ [] →
      (build_results_payload cands).shortlisted
        = (build_results_payload cands).all_candidates.take
            (max 1 (cands.length / 10)) ∧
      (build_results_payload cands).shortlisted.length
        = max 1 (cands.length / 10)) ∧
    (cands = [] → (build_results_payload cands).shortlisted = []) := by
  have hall : (build_results_payload cands).all_candidates
      = cands.mergeSort (fun a b => decide (b.match_score ≤ a.match_score))
      := rfl
  have hlen : (cands.mergeSort
      (fun a b => decide (b.match_score ≤ a.match_score))).length
      = cands.length := List.length_mergeSort cands
  refine ⟨?_, ?_, ?_⟩
  · rw [hall]
    have hp := @List.sorted_mergeSort CandidateRecord
      (fun a b => decide (b.match_score ≤ a.match_score))
      (fun a b c hab hbc => by
        rw [decide_eq_true_eq] at *
        exact le_trans hbc hab)
      (fun a b => by
        rcases le_total a.match_score b.match_score with h | h <;>
          simp [h])
      cands
    exact hp.imp (fun h => of_decide_eq_true h)
  · intro hne
    have hnes : cands.mergeSort
        (fun a b => decide (b.match_score ≤ a.match_score)) ≠ [] := by
      intro h
      apply hne
      have := hlen
      rw [h] at this
      exact List.length_eq_zero.mp this.symm
    have hsh : (build_results_payload cands).shortlisted
        = (cands.mergeSort
            (fun a b => decide (b.match_score ≤ a.match_score))).take
          (max 1 (cands.length / 10)) := by
      show (if (cands.mergeSort
          (fun a b => decide (b.match_score ≤ a.match_score))).isEmpty
        then []
        else (cands.mergeSort
            (fun a b => decide (b.match_score ≤ a.match_score))).take
          (max 1 ((cands.mergeSort
            (fun a b => decide (b.match_score ≤ a.match_score))).length / 10)))
        = _
      rw [if_neg (by simpa [List.isEmpty_iff] using hnes), hlen]
    refine ⟨hsh, ?_⟩
    rw [hsh, List.length_take, hlen]
    have h1 : 1 ≤ cands.length := by
      cases cands with
      | nil => exact absurd rfl hne
      | cons a t => simp
    exact min_eq_left (max_le h1 (le_trans (Nat.div_le_self _ _) (le_refl _)))
  · intro h
    subst h
    simp [build_results_payload, List.mergeSort_nil]

/-- Concrete applicant records for the batch witness. -/
def recLow : CandidateRecord := ⟨"A", "a@example.com", 50, "rejected"⟩

/-- Concrete applicant records for the batch witness. -/
def recHigh : CandidateRecord := ⟨"B", "b@example.com", 90, "shortlisted"⟩

/-- Witness for `batch_results_sorted_and_shortlist` on a two-element
batch. -/
theorem batch_results_sorted_and_shortlist_witness :
    ([recLow, recHigh] ≠ ([] : List CandidateRecord)) ∧
    (build_results_payload [recLow, recHigh]).shortlisted
      = (build_results_payload [recLow, recHigh]).all_candidates.take
          (max 1 ([recLow, recHigh].length / 10)) ∧
    (build_results_payload [recLow, recHigh]).shortlisted.length
      = max 1 ([recLow, recHigh].length / 10) := by
  have hne : [recLow, recHigh] ≠ ([] : List CandidateRecord) := by simp
  have h := (batch_results_sorted_and_shortlist [recLow, recHigh]).2.1 hne
  exact ⟨hne, h.1, h.2⟩

/-! ### C9: failure modes of the extraction contract -/

/-- C9, counterexample: with `fail_on_unavailable = true` and an
unparsable payload, `extract_candidate_facts` does not raise — it
silently returns the zero-valued sentinel, because the exception handler
around response parsing returns the sentinel regardless of the flag. -/
theorem claim9_counterexample_unparsable :
    raisesUnavailable (extract_candidate_facts .unparsable true) = false ∧
    extract_candidate_facts .unparsable true = .ok sentinelFacts :=
  ⟨rfl, rfl⟩

/-- C9 (amended): an unreachable extraction service raises the
distinguishable unavailable error exactly when `fail_on_unavailable` is
set and otherwise yields the sentinel; an unparsable payload yields the
sentinel for either flag value; and any successful return is either the
exact sentinel or the sanitized parsed facts — never partial data. -/
theorem extract_facts_failure_modes :
    extract_candidate_facts .unreachable true = .unavailableError ∧
    extract_candidate_facts .unreachable false = .ok sentinelFacts ∧
    (∀ b, extract_candidate_facts .unparsable b = .ok sentinelFacts) ∧
    (∀ (p : ExtractionPayload) (b : Bool) (f : CandidateFacts),
      extract_candidate_facts p b = .ok f →
        f = sentinelFacts ∨ p = .parsed f) := by
  refine ⟨rfl, rfl, fun b => rfl, ?_⟩
  rintro p b f h
  cases p with
  | unreachable =>
    cases b with
    | true => exact absurd h (by simp [extract_candidate_facts])
    | false =>
      left
      have : ExtractResult.ok sentinelFacts = ExtractResult.ok f := h
      cases this
      rfl
  | unparsable =>
    left
    have : ExtractResult.ok sentinelFacts = ExtractResult.ok f := h
    cases this
    rfl
  | parsed g =>
    right
    have : ExtractResult.ok g = ExtractResult.ok f := h
    cases this
    rfl

/-- Witness for `extract_facts_failure_modes` at concrete inputs. -/
theorem extract_facts_failure_modes_witness :
    extract_candidate_facts .unparsable true = .ok sentinelFacts ∧
    (sentinelFacts = sentinelFacts ∨
      ExtractionPayload.unparsable = .parsed sentinelFacts) :=
  ⟨extract_facts_failure_modes.2.2.1 true,
   extract_facts_failure_modes.2.2.2 .unparsable true sentinelFacts
     (extract_facts_failure_modes.2.2.1 true)⟩

end ATS
